import Mathlib

/-!
Verification development for the `html_scraper` repository.

The repository contains four variants of one rule-evaluation engine:
a JSON-value folder (`folder.rs`), a flat string-map visitor
(`visitor.rs`) driven by `html_scraper.rs`, an older test-only
"Extract" folder (`old.rs`), and a parallel driver
(`html_scraper_mt.rs`).  Markup parsing and selector matching are
performed by the external `scraper` crate (an out-of-scope collaborator
per the specification), so they are modelled here by a small concrete
document tree and selector language with the same interface: parse a
selector string (possibly failing), and return the matching descendant
nodes of an element in document order, plus each node's text content
and attributes.

Rust strings are modelled as Lean `String`s; every string operation
used by the sources (`trim`, `lines`, `split_whitespace`, `ends_with`,
string joins) is defined here over the underlying character list so
that all definitions compute.
-/

/-! ## String primitives (models of the Rust `str` methods used by the sources) -/

/-- Whitespace test used by `str::trim`, `str::lines` handling and
`str::split_whitespace` (ASCII subset of `char::is_whitespace`). -/
def rustIsWhitespace (c : Char) : Bool :=
  c == ' ' || c == '\t' || c == '\n' || c == '\x0b' || c == '\x0c' || c == '\r'

/-- Remove leading and trailing whitespace from a character list. -/
def trimChars (l : List Char) : List Char :=
  ((l.dropWhile rustIsWhitespace).reverse.dropWhile rustIsWhitespace).reverse

/-- Model of Rust `str::trim`. -/
def rustTrim (s : String) : String :=
  ⟨trimChars s.data⟩

/-- Split a character list at every occurrence of `c`; the separators are
dropped and empty pieces are kept (model of the splitting underlying
`str::lines`). -/
def splitOnChar (c : Char) : List Char → List (List Char)
  | [] => [[]]
  | x :: rest =>
    if x == c then [] :: splitOnChar c rest
    else
      match splitOnChar c rest with
      | [] => [[x]]
      | h :: t => (x :: h) :: t

/-- Drop one trailing carriage return, as `str::lines` does per line. -/
def stripCr (l : List Char) : List Char :=
  if l.getLast? == some '\r' then l.dropLast else l

/-- Model of Rust `str::lines`: split on `\n`, strip one trailing `\r`
per line, and do not produce a final empty line for a trailing
newline (nor any line at all for the empty string). -/
def rustLines (s : String) : List String :=
  let parts := splitOnChar '\n' s.data
  let parts := if parts.getLast? == some [] then parts.dropLast else parts
  parts.map (fun l => ⟨stripCr l⟩)

/-- Accumulator loop for `splitWhitespace`: gather maximal nonempty runs
of non-whitespace characters. -/
def splitWsGo : List Char → List Char → List (List Char)
  | [], acc => if acc.isEmpty then [] else [acc.reverse]
  | c :: rest, acc =>
    if rustIsWhitespace c then
      if acc.isEmpty then splitWsGo rest []
      else acc.reverse :: splitWsGo rest []
    else splitWsGo rest (c :: acc)

/-- Model of Rust `str::split_whitespace`: the maximal whitespace-free
nonempty substrings, in order. -/
def splitWhitespace (s : String) : List String :=
  (splitWsGo s.data []).map (fun l => ⟨l⟩)

/-- Join a list of strings with a separator (model of `Vec::join`). -/
def joinSep (sep : String) : List String → String
  | [] => ""
  | [x] => x
  | x :: y :: rest => x ++ sep ++ joinSep sep (y :: rest)

/-- Model of Rust `str::ends_with` for string suffixes. -/
def strEndsWith (s suffix : String) : Bool :=
  suffix.data.reverse == s.data.reverse.take suffix.data.length

/-! ## Text cleaner (`cleaner.rs`) -/

namespace DefaultCleaner

/-- Model of `DefaultCleaner::clean` (cleaner.rs lines 9-17): split the
input on line breaks, trim each line, drop the lines that are empty
after trimming, and rejoin the remaining lines with single spaces. -/
def clean (text : String) : String :=
  joinSep " " (((rustLines text).map rustTrim).filter (fun s => !s.data.isEmpty))

end DefaultCleaner

/-! ## Document model (the external Document Adapter: the `scraper` crate) -/

/-- A parsed markup node: an element with a tag, attributes and children,
or a text node.  This models the document tree owned by the external
`scraper` crate. -/
inductive Node where
  | text (s : String)
  | elem (tag : String) (attrs : List (String × String)) (children : List Node)

/-- Attributes of an element node (a text node has none). -/
def nodeAttrs : Node → List (String × String)
  | .text _ => []
  | .elem _ attrs _ => attrs

/-- First-match attribute lookup, as `Element::attr` of the `scraper`
crate. -/
def attrLookup : List (String × String) → String → Option String
  | [], _ => none
  | (k, v) :: rest, key => if k == key then some v else attrLookup rest key

mutual
/-- Model of `ElementRef::text().collect::<String>()`: the concatenation
of all descendant text nodes in document order, with no separator. -/
def textContent : Node → String
  | .text s => s
  | .elem _ _ cs => textContentList cs
def textContentList : List Node → String
  | [] => ""
  | n :: rest => textContent n ++ textContentList rest
end

/-- A parsed selector: the concrete model supports tag-name selectors
(`h1`) and class selectors (`.author`), enough to exercise every code
path of the evaluators. -/
inductive Sel where
  | tagSel (t : String)
  | classSel (c : String)
deriving DecidableEq

/-- Characters allowed in a tag or class name of the selector model. -/
def isSelChar (c : Char) : Bool :=
  "abcdefghijklmnopqrstuvwxyzABCDEFGHIJKLMNOPQRSTUVWXYZ0123456789-_".data.contains c

/-- Model of `Selector::parse` of the external `scraper` crate: `none`
is a parse failure (an invalid selector string such as `""`). -/
def selParse (s : String) : Option Sel :=
  match s.data with
  | [] => none
  | '.' :: rest =>
    if !rest.isEmpty && rest.all isSelChar then some (.classSel ⟨rest⟩) else none
  | l => if l.all isSelChar then some (.tagSel s) else none

/-- Whether one node matches a parsed selector. -/
def selMatches (sel : Sel) : Node → Bool
  | .text _ => false
  | .elem tag attrs _ =>
    match sel with
    | .tagSel t => tag == t
    | .classSel c =>
      match attrLookup attrs "class" with
      | some cls => (splitWhitespace cls).contains c
      | none => false

mutual
/-- Matching nodes within a forest, in document (preorder) order. -/
def selectFrom (sel : Sel) : List Node → List Node
  | [] => []
  | n :: rest =>
    (if selMatches sel n then [n] else []) ++ selectInside sel n ++ selectFrom sel rest
def selectInside (sel : Sel) : Node → List Node
  | .text _ => []
  | .elem _ _ cs => selectFrom sel cs
end

/-- Model of `ElementRef::select`: the strict descendants of `n` that
match `sel`, in document order. -/
def select (sel : Sel) (n : Node) : List Node :=
  selectInside sel n

/-! ## Association-map primitives

`serde_json::Map`, `HashMap` and `DashMap` results are modelled as
association lists with overwriting insertion.  (The concrete iteration
orders of `BTreeMap`/`HashMap` differ from insertion order; no claim
below depends on field order, only on the key-value bindings.) -/

/-- Overwriting insertion: replace the binding in place if the key is
present, else append it. -/
def mapInsert {V : Type} : List (String × V) → String → V → List (String × V)
  | [], k, v => [(k, v)]
  | (k2, v2) :: rest, k, v =>
    if k2 == k then (k, v) :: rest else (k2, v2) :: mapInsert rest k v

/-- Model of `HashMap::extend`: insert every pair of the second map into
the first, in order, overwriting on key collision (last write wins). -/
def mapExtend {V : Type} (m : List (String × V)) : List (String × V) → List (String × V)
  | [] => m
  | (k, v) :: rest => mapExtend (mapInsert m k v) rest

/-! ## JSON value model (`serde_json::Value`) -/

/-- Model of `serde_json::Value` as produced by the evaluators: null,
string, array, or object (no numbers or booleans are ever produced). -/
inductive Value where
  | null
  | str (s : String)
  | arr (items : List Value)
  | obj (fields : List (String × Value))

/-! ## The JSON-value folder (`folder.rs`) -/

namespace Folder

/-- Model of `folder.rs`'s `ScrapeRule`: `name` is optional in this
variant. -/
inductive ScrapeRule where
  | One (selector : String) (name : Option String) (sub_rules : Option (List ScrapeRule))
      (attr : Option String)
  | All (selector : String) (name : Option String) (sub_rules : Option (List ScrapeRule))
      (attr : Option String)
  | Text (selector : String) (name : Option String)

/-- Model of `ScrapeRule::name` (folder.rs lines 145-153). -/
def ScrapeRule.name : ScrapeRule → Option String
  | .One _ name _ _ => name
  | .All _ name _ _ => name
  | .Text _ name => name

mutual
/-- Model of `HtmlScraper::fold_rule` together with the three trait
methods it dispatches to (`fold_one`, folder.rs lines 85-105;
`fold_all`, lines 107-129; `fold_text`, lines 131-143), one match arm
per method.  `Selector::parse(selector).unwrap()` panics on an invalid
selector; the panic is modelled by `none`. -/
def fold_rule : ScrapeRule → Node → Option Value
  | .One selector _ sub_rules attr, element =>
    match selParse selector with
    | none => none
    | some sel =>
      match select sel element with
      | selected_element :: _ =>
        match sub_rules with
        | some subs => (fold_subs subs selected_element []).map Value.obj
        | none =>
          match attr with
          | some a =>
            some (.str ((attrLookup (nodeAttrs selected_element) a).getD ""))
          | none => some (.str (rustTrim (textContent selected_element)))
      | [] => some .null
  | .All selector _ sub_rules attr, element =>
    match selParse selector with
    | none => none
    | some sel =>
      (match sub_rules with
       | some subs =>
         (select sel element).mapM (fun selected_element =>
           (fold_subs subs selected_element []).map Value.obj)
       | none =>
         match attr with
         | some a =>
           (select sel element).mapM (fun selected_element =>
             some (Value.str ((attrLookup (nodeAttrs selected_element) a).getD "")))
         | none =>
           (select sel element).mapM (fun selected_element =>
             some (Value.str (rustTrim (textContent selected_element))))).map Value.arr
  | .Text selector _, element =>
    match selParse selector with
    | none => none
    | some sel =>
      some (.str (joinSep " "
        (splitWhitespace (joinSep " " ((select sel element).map textContent)))))
/-- Model of the `for sub_rule in sub_rules` loops of `fold_one` and
`fold_all`: evaluate each sub-rule against the matched element and
insert its value under its name (skipping unnamed rules), building the
`sub_result` map in order. -/
def fold_subs : List ScrapeRule → Node → List (String × Value) → Option (List (String × Value))
  | [], _, sub_result => some sub_result
  | sub_rule :: rest, element, sub_result => do
    let sub_value ← fold_rule sub_rule element
    match sub_rule.name with
    | some n => fold_subs rest element (mapInsert sub_result n sub_value)
    | none => fold_subs rest element sub_result
end

/-- Loop of `HtmlScraper::scrape` (folder.rs lines 155-171): fold each
top-level rule against the document root and insert its value under the
rule's name. -/
def scrapeGo : List ScrapeRule → Node → List (String × Value) → Option (List (String × Value))
  | [], _, result => some result
  | rule :: rest, root, result => do
    let value ← fold_rule rule root
    match rule.name with
    | some n => scrapeGo rest root (mapInsert result n value)
    | none => scrapeGo rest root result

/-- Model of `HtmlScraper::scrape` (folder.rs lines 155-171); the
document is already parsed (`root` is the root element). -/
def scrape (rules : List ScrapeRule) (root : Node) : Option (List (String × Value)) :=
  scrapeGo rules root []

end Folder

/-! ## Configuration schema (`scraper_config.rs`) -/

namespace Config

/-- Model of `scraper_config.rs`'s `ScrapeRule` (lines 45-68): the
variant used by the visitor, with a required `name` and the serde
attributes `#[serde(tag = "type")]` on the enum and `#[serde(default)]`
on the optional fields.  (`attribute` is spelled `attr` because
`attribute` is a Lean keyword.) -/
inductive ScrapeRule where
  | One (selector : String) (name : String) (sub_rules : Option (List ScrapeRule))
      (attr : Option String)
  | All (selector : String) (name : String) (sub_rules : Option (List ScrapeRule))
      (attr : Option String)
  | Text (selector : String) (name : String)

/-- Model of `ScraperConfig` (scraper_config.rs lines 70-79). -/
structure ScraperConfig where
  rules : List ScrapeRule

end Config

/-! ## serde data model

`ScraperConfig`'s `Display` implementation serializes through
`serde_json::to_string`, and `ScrapeConfig::from_config` deserializes
with `serde_json::from_str`/`toml::from_str`.  The JSON text
rendering/parsing itself is `serde_json` (external); what the
repository defines is the schema mapping induced by its derive
attributes, modelled here as an encoding to and a decoding from the
serde data model `Json`. -/

/-- The serde data model restricted to the shapes the schema uses. -/
inductive Json where
  | null
  | str (s : String)
  | arr (items : List Json)
  | obj (fields : List (String × Json))

/-- Field lookup in a serialized object (serde matches fields by name,
in any position). -/
def lookupField : List (String × Json) → String → Option Json
  | [], _ => none
  | (k, v) :: rest, key => if k == key then some v else lookupField rest key

namespace Config

/-- Serialization of an `Option<String>` field (serde_json writes
`None` as `null`). -/
def encodeOptStr : Option String → Json
  | none => .null
  | some s => .str s

mutual
/-- Serialization of one `ScrapeRule` under `#[serde(tag = "type")]`:
an object carrying the `type` discriminator (`"One"`, `"All"`,
`"Text"`) next to the variant's fields; optional fields are written as
`null` when absent. -/
def encodeRule : ScrapeRule → Json
  | .One selector name sub_rules attr =>
    .obj [("type", .str "One"), ("selector", .str selector), ("name", .str name),
      ("sub_rules", match sub_rules with
        | none => .null
        | some rs => .arr (encodeRules rs)),
      ("attribute", encodeOptStr attr)]
  | .All selector name sub_rules attr =>
    .obj [("type", .str "All"), ("selector", .str selector), ("name", .str name),
      ("sub_rules", match sub_rules with
        | none => .null
        | some rs => .arr (encodeRules rs)),
      ("attribute", encodeOptStr attr)]
  | .Text selector name =>
    .obj [("type", .str "Text"), ("selector", .str selector), ("name", .str name)]
def encodeRules : List ScrapeRule → List Json
  | [] => []
  | r :: rest => encodeRule r :: encodeRules rest
end

/-- Serialization of a whole `ScraperConfig` (the `Display`
implementation, scraper_config.rs lines 81-85). -/
def encodeConfig (c : ScraperConfig) : Json :=
  .obj [("rules", .arr (encodeRules c.rules))]

/-- Termination helper for `decodeRule`: the size of a looked-up field
value is below the field list's size. -/
def lookupField_sizeOf {fields : List (String × Json)} {key : String} {j : Json}
    (h : lookupField fields key = some j) : sizeOf j < sizeOf fields := by
  induction fields with
  | nil => simp [lookupField] at h
  | cons p rest ih =>
    obtain ⟨k, v⟩ := p
    simp only [lookupField] at h
    by_cases hk : (k == key) = true
    · simp [hk] at h
      subst h
      simp
      omega
    · simp [hk] at h
      have := ih h
      simp
      omega

mutual
/-- Deserialization of one `ScrapeRule` from the serde data model: an
object whose `"type"` field selects the variant; `selector` and `name`
are required strings; `sub_rules` and `attribute` default to absent
when missing or `null` (`#[serde(default)]`). -/
def decodeRule (j : Json) : Option ScrapeRule :=
  match j with
  | .obj fields =>
    match lookupField fields "type" with
    | some (.str tag) =>
      if tag == "Text" then
        match lookupField fields "selector", lookupField fields "name" with
        | some (.str selector), some (.str name) => some (.Text selector name)
        | _, _ => none
      else if tag == "One" || tag == "All" then
        match lookupField fields "selector", lookupField fields "name" with
        | some (.str selector), some (.str name) =>
          let attr : Option (Option String) :=
            match lookupField fields "attribute" with
            | none => some none
            | some .null => some none
            | some (.str a) => some (some a)
            | some _ => none
          match attr with
          | none => none
          | some attr =>
            match h : lookupField fields "sub_rules" with
            | none =>
              some (if tag == "One" then .One selector name none attr
                else .All selector name none attr)
            | some .null =>
              some (if tag == "One" then .One selector name none attr
                else .All selector name none attr)
            | some (.arr js) =>
              match decodeRuleList js with
              | some rs =>
                some (if tag == "One" then .One selector name (some rs) attr
                  else .All selector name (some rs) attr)
              | none => none
            | some _ => none
        | _, _ => none
      else none
    | _ => none
  | _ => none
termination_by sizeOf j
decreasing_by
  simp_wf
  have := lookupField_sizeOf h
  simp at this ⊢
  omega
/-- Deserialization of an array of rules. -/
def decodeRuleList (js : List Json) : Option (List ScrapeRule) :=
  match js with
  | [] => some []
  | j :: rest => do
    let r ← decodeRule j
    let rs ← decodeRuleList rest
    pure (r :: rs)
termination_by sizeOf js
decreasing_by
  all_goals simp_wf <;> omega
end

/-- Deserialization of a whole `ScraperConfig`. -/
def decodeConfig (j : Json) : Option ScraperConfig :=
  match j with
  | .obj fields =>
    match lookupField fields "rules" with
    | some (.arr js) => (decodeRuleList js).map ScraperConfig.mk
    | _ => none
  | _ => none

end Config

/-! ## The flat string-map visitor (`visitor.rs`) -/

namespace Visitor

/-- Escape a character list for a JSON string literal (model of the
escaping `serde_json::to_string` applies; control characters beyond
the common ones are not exercised by any claim). -/
def jsonEscape : List Char → List Char
  | [] => []
  | c :: rest =>
    if c == '"' then '\\' :: '"' :: jsonEscape rest
    else if c == '\\' then '\\' :: '\\' :: jsonEscape rest
    else if c == '\n' then '\\' :: 'n' :: jsonEscape rest
    else if c == '\t' then '\\' :: 't' :: jsonEscape rest
    else if c == '\r' then '\\' :: 'r' :: jsonEscape rest
    else c :: jsonEscape rest

/-- A JSON string literal. -/
def jsonString (s : String) : String :=
  "\"" ++ ⟨jsonEscape s.data⟩ ++ "\""

/-- Model of `serde_json::to_string(&Vec<String>)`, used by the `All`
arm of the visitor to pre-serialize its list result into the flat
string map. -/
def jsonStringList (xs : List String) : String :=
  "[" ++ joinSep "," (xs.map jsonString) ++ "]"

/-- Model of `serde_json::to_string(&HashMap<String, String>)`, used by
the `All` arm for elements with sub-rules (fields in the association
list's order; `HashMap` iteration order is arbitrary in the source). -/
def jsonStringMap (m : List (String × String)) : String :=
  "\x7b" ++ joinSep "," (m.map (fun p => jsonString p.1 ++ ":" ++ jsonString p.2)) ++ "\x7d"

/-- Model of `ScraperVisitor::visit_text` (visitor.rs lines 107-113):
apply the configured cleaner, if any. -/
def visit_text (text : String) (cleaner : Option (String → String)) : String :=
  match cleaner with
  | some c => c text
  | none => text

mutual
/-- Model of `ScraperVisitor::visit_element` (visitor.rs lines 22-105),
producing the flat `HashMap<String, String>` result.
`Selector::parse(selector).unwrap()` panics on an invalid selector; the
panic is modelled by `none`.  The per-element `if let Some(sub_rules)`
test of the `All` arm's closure is hoisted out of the iteration (it
does not depend on the element). -/
def visit_element : Config.ScrapeRule → Node → Option (String → String) →
    Option (List (String × String))
  | .One selector name sub_rules attr, element, cleaner =>
    match selParse selector with
    | none => none
    | some sel =>
      match select sel element with
      | selected_element :: _ =>
        match sub_rules with
        | some subs => visit_subs subs selected_element cleaner []
        | none =>
          match attr with
          | some a =>
            some (mapInsert [] name
              (visit_text ((attrLookup (nodeAttrs selected_element) a).getD "") cleaner))
          | none =>
            some (mapInsert [] name (visit_text (textContent selected_element) cleaner))
      | [] => some []
  | .All selector name sub_rules attr, element, cleaner =>
    match selParse selector with
    | none => none
    | some sel => do
      let values ← match sub_rules with
        | some subs =>
          (select sel element).mapM (fun selected_element =>
            (visit_subs subs selected_element cleaner []).map jsonStringMap)
        | none =>
          match attr with
          | some a =>
            (select sel element).mapM (fun selected_element =>
              some (visit_text ((attrLookup (nodeAttrs selected_element) a).getD "") cleaner))
          | none =>
            (select sel element).mapM (fun selected_element =>
              some (visit_text (textContent selected_element) cleaner))
      some (mapInsert [] name (jsonStringList values))
  | .Text selector name, element, cleaner =>
    match selParse selector with
    | none => none
    | some sel =>
      some (mapInsert [] name
        (visit_text (joinSep " " ((select sel element).map textContent)) cleaner))
/-- Model of the `for sub_rule in sub_rules { result.extend(...) }`
loops: visit each sub-rule against the matched element and merge its
pairs into the accumulated flat map (last write wins). -/
def visit_subs : List Config.ScrapeRule → Node → Option (String → String) →
    List (String × String) → Option (List (String × String))
  | [], _, _, result => some result
  | sub_rule :: rest, element, cleaner, result => do
    let m ← visit_element sub_rule element cleaner
    visit_subs rest element cleaner (mapExtend result m)
end

end Visitor

/-! ## The sequential driver (`html_scraper.rs`) -/

namespace Scraper

/-- Loop of `HtmlScraper::scrape` (html_scraper.rs lines 72-96): visit
each top-level rule against the document root and extend one shared
flat map with its pairs.  (The config-resolution step of `scrape` is
modelled separately by `Config.from_config`; conversion into the
caller's record type is external.) -/
def scrapeGo : List Config.ScrapeRule → Node → Option (String → String) →
    List (String × String) → Option (List (String × String))
  | [], _, _, result => some result
  | rule :: rest, root, cleaner, result => do
    let m ← Visitor.visit_element rule root cleaner
    scrapeGo rest root cleaner (mapExtend result m)

/-- Model of the evaluation phase of `HtmlScraper::scrape`
(html_scraper.rs lines 84-94). -/
def scrape (rules : List Config.ScrapeRule) (root : Node) (cleaner : Option (String → String)) :
    Option (List (String × String)) :=
  scrapeGo rules root cleaner []

end Scraper

/-! ## The test-only Extract folder (`old.rs`) -/

namespace Old

/-- Model of `old.rs`'s `Extract` (lines 8-26). -/
inductive Extract where
  | One (locator : String) (name : Option String) (sub_entities : Option (List Extract))
      (attr : Option String)
  | All (locator : String) (name : Option String) (sub_entities : Option (List Extract))
      (attr : Option String)
  | Text (locator : String) (name : Option String)

/-- Model of `old.rs`'s `ScraperError` (lines 176-180). -/
inductive ScraperError where
  | InvalidSelector (s : String)
  | ElementNotFound (s : String)
deriving DecidableEq

/-- Model of `Html::parse_fragment(&element.html())`: re-serializing an
element and re-parsing it as a fragment wraps it under a fresh root, so
a subsequent `document.select` can match the element itself as well as
its descendants. -/
def parse_fragment (element : Node) : Node :=
  .elem "html" [] [element]

mutual
/-- Model of `HtmlScraper::extract` (old.rs lines 43-70) together with
`extract_one` (lines 72-105), `extract_all` (lines 107-149) and
`extract_text` (lines 151-173), one match arm per method.  Unlike the
other evaluators this one returns typed errors: an unparsable locator
is `InvalidSelector`, and zero matches is `ElementNotFound` (for both
`One` and `All`). -/
def extract : Node → List (String × Value) → Extract →
    Except ScraperError (List (String × Value))
  | document, result, .One locator name sub_entities attr => do
    let sel ← match selParse locator with
      | none => Except.error (.InvalidSelector locator)
      | some s => Except.ok s
    match select sel document with
    | [] => Except.error (.ElementNotFound locator)
    | element :: _ => do
      let value ← match sub_entities with
        | some subs => (extract_list (parse_fragment element) [] subs).map Value.obj
        | none =>
          match attr with
          | some a => Except.ok (Value.str ((attrLookup (nodeAttrs element) a).getD ""))
          | none => Except.ok (Value.str (rustTrim (textContent element)))
      Except.ok (mapInsert result (name.getD locator) value)
  | document, result, .All locator name sub_entities attr => do
    let sel ← match selParse locator with
      | none => Except.error (.InvalidSelector locator)
      | some s => Except.ok s
    let elements := select sel document
    if elements.isEmpty then Except.error (.ElementNotFound locator)
    else do
      let all_results ← match sub_entities with
        | some subs =>
          elements.mapM (fun element =>
            (extract_list (parse_fragment element) [] subs).map Value.obj)
        | none =>
          match attr with
          | some a =>
            elements.mapM (fun element =>
              Except.ok (Value.str ((attrLookup (nodeAttrs element) a).getD "")))
          | none =>
            elements.mapM (fun element =>
              Except.ok (Value.str (rustTrim (textContent element))))
      Except.ok (mapInsert result (name.getD locator) (Value.arr all_results))
  | document, result, .Text locator name => do
    let sel ← match selParse locator with
      | none => Except.error (.InvalidSelector locator)
      | some s => Except.ok s
    Except.ok (mapInsert result (name.getD locator)
      (Value.str (joinSep " "
        (splitWhitespace (joinSep " " ((select sel document).map textContent))))))
/-- Model of the `for sub_entity in sub_entities` / `for step in steps`
loops: run each step in order against the same document, threading the
result map, stopping at the first error. -/
def extract_list : Node → List (String × Value) → List Extract →
    Except ScraperError (List (String × Value))
  | _, result, [] => Except.ok result
  | document, result, step :: rest => do
    let result2 ← extract document result step
    extract_list document result2 rest
end

/-- Model of `HtmlScraper::scrape_html` (old.rs lines 28-41); the
document is already parsed (`root` is its root). -/
def scrape_html (root : Node) (steps : List Extract) :
    Except ScraperError (List (String × Value)) :=
  extract_list root [] steps

end Old

/-! ## Configuration loading (`ScrapeConfig::from_config`) -/

namespace Config

/-- Model of `error.rs`'s `ConfigError` (the variants reachable from
`from_config`). -/
inductive ConfigError where
  | IoError
  | JsonParse
  | TomlParse
  | UnsupportedFormat
  | TomlNotEnabled
deriving DecidableEq

/-- The filesystem as seen by `from_config`: `read s = some content`
models `Path::new(s).exists()` returning true and `fs::read_to_string`
succeeding with `content`; `none` models a non-existent path (read
errors after a successful existence check are not exercised by any
claim). -/
structure FileSystem where
  read : String → Option String

/-- Model of `ScrapeConfig::from_config` (scraper_config.rs lines
10-41).  `parseJson` and `parseToml` model the external
`serde_json::from_str` and `toml::from_str` (`none` is a parse
failure); `tomlEnabled` models the `toml_config` cargo feature. -/
def from_config (tomlEnabled : Bool) (parseJson parseToml : String → Option ScraperConfig)
    (fs : FileSystem) (config : String) : Except ConfigError ScraperConfig :=
  match fs.read config with
  | some config_content =>
    if strEndsWith config ".json" then
      match parseJson config_content with
      | some c => .ok c
      | none => .error .JsonParse
    else if strEndsWith config ".toml" then
      if tomlEnabled then
        match parseToml config_content with
        | some c => .ok c
        | none => .error .TomlParse
      else .error .TomlNotEnabled
    else .error .UnsupportedFormat
  | none =>
    match parseJson config with
    | some c => .ok c
    | none =>
      if tomlEnabled then
        match parseToml config with
        | some c => .ok c
        | none => .error .TomlParse
      else .error .UnsupportedFormat

/-- The (required) name of a top-level configured rule. -/
def ruleName : ScrapeRule → String
  | .One _ name _ _ => name
  | .All _ name _ _ => name
  | .Text _ name => name

end Config

/-! ## Parallel evaluation model (`html_scraper_mt.rs`) -/

namespace Mt

mutual
/-- The configured rule shape and the folder rule shape describe the
same rule tree; this conversion lets the structural `Value` evaluator
(`Folder.fold_rule`) evaluate configured rules. -/
def toFolderRule : Config.ScrapeRule → Folder.ScrapeRule
  | .One selector name sub_rules attr =>
    .One selector (some name)
      (match sub_rules with
        | none => none
        | some rs => some (toFolderRules rs)) attr
  | .All selector name sub_rules attr =>
    .All selector (some name)
      (match sub_rules with
        | none => none
        | some rs => some (toFolderRules rs)) attr
  | .Text selector name => .Text selector (some name)
def toFolderRules : List Config.ScrapeRule → List Folder.ScrapeRule
  | [] => []
  | r :: rest => toFolderRule r :: toFolderRules rest
end

/-- Modelled from the spec: the parallel driver `html_scraper_mt.rs`
calls a `DashMap`-writing `ScraperVisitor::visit_element` that is not
part of the repository sources; per spec section 4.3 each worker runs
the sequential rule evaluator on one top-level rule against the shared
root and writes its (name, Value) result into the shared container.
`scrapePairs` is the list of per-worker writes, one per top-level rule,
in rule order. -/
def scrapePairs (rules : List Config.ScrapeRule) (root : Node) :
    List (String × Option Value) :=
  rules.map (fun r => (Config.ruleName r, Folder.fold_rule (toFolderRule r) root))

/-- Modelled from the spec: the shared result container after a list of
worker writes has been applied in some order (last write wins on a key
collision).  Sequential evaluation applies the writes in rule order;
parallel evaluation applies them in an arbitrary scheduler-dependent
permutation. -/
def mergeWrites (writes : List (String × Option Value)) : List (String × Option Value) :=
  mapExtend [] writes

end Mt


/-! ## Derived definitions used by the statements below -/

/-- The whitespace normal form produced by the `Text` arms of
`folder.rs` and `old.rs`: split on whitespace runs and rejoin with
single spaces (which also trims). -/
def normalizeWs (s : String) : String :=
  joinSep " " (splitWhitespace s)

namespace Config

mutual
/-- The keys a configured rule can contribute to the flat string map of
the visitor: its own name, except that a `One` rule with sub-rules
contributes only its sub-rules' keys. -/
def ruleKeys : ScrapeRule → List String
  | .One _ name sub_rules _ =>
    match sub_rules with
    | some rs => rulesKeys rs
    | none => [name]
  | .All _ name _ _ => [name]
  | .Text _ name => [name]
/-- Keys contributed by a list of rules. -/
def rulesKeys : List ScrapeRule → List String
  | [] => []
  | r :: rest => ruleKeys r ++ rulesKeys rest
end

end Config

/-! ## Concrete documents used by witnesses and counterexamples -/

/-- The news-article document of the repository's tests, parsed. -/
def sampleDoc : Node :=
  .elem "html" [] [.elem "body" [] [
    .elem "h1" [("class", "title")] [.text "Breaking News"],
    .elem "div" [("class", "author")] [.text "John Doe"],
    .elem "div" [("class", "paragraph")] [.text "A"],
    .elem "div" [("class", "paragraph")] [.text "B"]]]

/-- A document whose paragraph text contains an interior double space. -/
def wsDoc : Node :=
  .elem "html" [] [.elem "p" [] [.text "a  b"]]

/-- A document with a nested element, for sub-rule evaluation. -/
def nestedDoc : Node :=
  .elem "html" [] [.elem "div" [] [.elem "p" [] [.text "hi"]]]

/-- A document whose link element has no `href` attribute. -/
def attrDoc : Node :=
  .elem "html" [] [.elem "a" [("class", "link")] [.text "x"]]
/-! ## Lemmas about the association-map primitives -/

theorem mapInsert_lookup {V : Type} (m : List (String × V)) (k k' : String) (v : V) :
    (mapInsert m k v).lookup k' = if k' == k then some v else m.lookup k' := by
  induction m with
  | nil =>
    by_cases h : k' = k
    · subst h
      simp [mapInsert, List.lookup]
    · have hb : (k' == k) = false := by simpa using h
      simp [mapInsert, List.lookup, hb]
  | cons p rest ih =>
    obtain ⟨k2, v2⟩ := p
    by_cases h2 : k2 = k
    · subst h2
      by_cases h3 : k' = k2
      · subst h3
        simp [mapInsert, List.lookup]
      · have h3b : (k' == k2) = false := by simpa using h3
        simp [mapInsert, List.lookup, h3b]
    · have h2b : (k2 == k) = false := by simpa using h2
      by_cases h3 : k' = k2
      · subst h3
        have h4 : (k' == k) = false := by simpa using h2
        simp [mapInsert, List.lookup, h2b, h4]
      · have h3b : (k' == k2) = false := by simpa using h3
        simp [mapInsert, List.lookup, h2b, h3b, ih]

theorem lookup_append {V : Type} (l1 l2 : List (String × V)) (k : String) :
    (l1 ++ l2).lookup k = (l1.lookup k).or (l2.lookup k) := by
  induction l1 with
  | nil => simp
  | cons p rest ih =>
    obtain ⟨k1, v1⟩ := p
    by_cases h : k = k1
    · subst h
      simp [List.lookup]
    · have hb : (k == k1) = false := by simpa using h
      simp [List.lookup, hb, ih]

theorem mapExtend_lookup {V : Type} (l m : List (String × V)) (k : String) :
    (mapExtend m l).lookup k = (l.reverse.lookup k).or (m.lookup k) := by
  induction l generalizing m with
  | nil => simp [mapExtend]
  | cons p rest ih =>
    obtain ⟨k1, v1⟩ := p
    simp only [mapExtend, List.reverse_cons]
    rw [ih, lookup_append, mapInsert_lookup]
    by_cases h : k = k1
    · subst h
      simp only [List.lookup, beq_self_eq_true, if_true]
      cases rest.reverse.lookup k <;> simp [Option.or]
    · have hb : (k == k1) = false := by simpa using h
      simp only [List.lookup, hb, Bool.false_eq_true, if_false]
      cases rest.reverse.lookup k <;> simp [Option.or]

theorem lookup_eq_none_iff {V : Type} (l : List (String × V)) (k : String) :
    l.lookup k = none ↔ k ∉ l.map Prod.fst := by
  induction l with
  | nil => simp
  | cons p rest ih =>
    obtain ⟨k1, v1⟩ := p
    by_cases h : k = k1
    · subst h
      simp [List.lookup]
    · have hb : (k == k1) = false := by simpa using h
      simp [List.lookup, hb, ih, h]

theorem lookup_reverse_eq_none_iff {V : Type} (l : List (String × V)) (k : String) :
    l.reverse.lookup k = none ↔ l.lookup k = none := by
  rw [lookup_eq_none_iff, lookup_eq_none_iff]
  simp

theorem perm_lookup_eq {V : Type} {l1 l2 : List (String × V)} (h : l1.Perm l2)
    (nd : (l1.map Prod.fst).Nodup) (k : String) : l1.lookup k = l2.lookup k := by
  induction h with
  | nil => rfl
  | cons p _ ih =>
    obtain ⟨k1, v1⟩ := p
    simp only [List.map_cons, List.nodup_cons] at nd
    by_cases h1 : k = k1
    · subst h1
      simp [List.lookup]
    · have hb : (k == k1) = false := by simpa using h1
      simp [List.lookup, hb, ih nd.2]
  | swap p q l =>
    obtain ⟨k1, v1⟩ := p
    obtain ⟨k2, v2⟩ := q
    simp only [List.map_cons, List.nodup_cons, List.mem_cons, not_or] at nd
    have hne : k2 ≠ k1 := nd.1.1
    by_cases h1 : k = k1
    · subst h1
      have hb : (k == k2) = false := by
        simpa using fun hh => hne (hh.symm)
      simp [List.lookup, hb]
    · by_cases h2 : k = k2
      · subst h2
        have hb : (k == k1) = false := by simpa using h1
        simp [List.lookup, hb]
      · have hb1 : (k == k1) = false := by simpa using h1
        have hb2 : (k == k2) = false := by simpa using h2
        simp [List.lookup, hb1, hb2]
  | trans h12 h23 ih12 ih23 =>
    rw [ih12 nd]
    exact ih23 (((h12.map Prod.fst).nodup_iff).mp nd)

theorem scrapePairs_keys (rules : List Config.ScrapeRule) (root : Node) :
    (Mt.scrapePairs rules root).map Prod.fst = rules.map Config.ruleName := by
  simp [Mt.scrapePairs, List.map_map]

/-- C8 (spec-modelled): for every document and every rule set with
unique top-level rule names, applying the per-rule (name, Value)
worker writes of spec section 4.3 in any scheduler order yields the
same bindings as applying them in rule order: sequential and parallel
evaluation agree on every key. -/
theorem C8_mode_independence (rules rulesSched : List Config.ScrapeRule) (root : Node)
    (hperm : rulesSched.Perm rules)
    (hnd : (rules.map Config.ruleName).Nodup) (k : String) :
    (Mt.mergeWrites (Mt.scrapePairs rulesSched root)).lookup k =
      (Mt.mergeWrites (Mt.scrapePairs rules root)).lookup k := by
  have hA : (Mt.scrapePairs rulesSched root).Perm (Mt.scrapePairs rules root) := by
    exact hperm.map _
  have hndB : ((Mt.scrapePairs rules root).map Prod.fst).Nodup := by
    rw [scrapePairs_keys]
    exact hnd
  have hndA : ((Mt.scrapePairs rulesSched root).map Prod.fst).Nodup :=
    ((hA.map Prod.fst).nodup_iff).mpr hndB
  rw [Mt.mergeWrites, Mt.mergeWrites, mapExtend_lookup, mapExtend_lookup]
  have hrev : (Mt.scrapePairs rulesSched root).reverse.Perm
      ((Mt.scrapePairs rules root).reverse) :=
    (List.reverse_perm _).trans (hA.trans (List.reverse_perm _).symm)
  have hndArev : ((Mt.scrapePairs rulesSched root).reverse.map Prod.fst).Nodup := by
    rw [List.map_reverse]
    exact List.nodup_reverse.mpr hndA
  rw [perm_lookup_eq hrev hndArev k]

mutual
theorem decodeRule_encodeRule (r : Config.ScrapeRule) :
    Config.decodeRule (Config.encodeRule r) = some r := by
  cases r with
  | One selector name subs attr =>
    cases subs with
    | none =>
      cases attr <;>
        simp +decide [Config.encodeRule, Config.decodeRule, lookupField,
          Config.encodeOptStr]
    | some rs =>
      have ih := decodeRuleList_encodeRules rs
      cases attr <;>
        simp +decide [Config.encodeRule, Config.decodeRule, lookupField,
          Config.encodeOptStr, ih]
  | All selector name subs attr =>
    cases subs with
    | none =>
      cases attr <;>
        simp +decide [Config.encodeRule, Config.decodeRule, lookupField,
          Config.encodeOptStr]
    | some rs =>
      have ih := decodeRuleList_encodeRules rs
      cases attr <;>
        simp +decide [Config.encodeRule, Config.decodeRule, lookupField,
          Config.encodeOptStr, ih]
  | Text selector name =>
    simp +decide [Config.encodeRule, Config.decodeRule, lookupField]
theorem decodeRuleList_encodeRules (rs : List Config.ScrapeRule) :
    Config.decodeRuleList (Config.encodeRules rs) = some rs := by
  cases rs with
  | nil => simp [Config.encodeRules, Config.decodeRuleList]
  | cons r rest =>
    have ih1 := decodeRule_encodeRule r
    have ih2 := decodeRuleList_encodeRules rest
    simp [Config.encodeRules, Config.decodeRuleList, ih1, ih2]
end


/-! ## Lemmas about whitespace splitting -/

theorem splitWsGo_append_nonWs (w : List Char) (l acc : List Char)
    (hw : w.all (fun c => !rustIsWhitespace c)) :
    splitWsGo (w ++ l) acc = splitWsGo l (w.reverse ++ acc) := by
  induction w generalizing acc with
  | nil => simp
  | cons c w ih =>
    simp only [List.all_cons, Bool.and_eq_true] at hw
    have hc : rustIsWhitespace c = false := by
      revert hw
      cases rustIsWhitespace c <;> simp
    simp only [List.cons_append, splitWsGo, hc, Bool.false_eq_true, if_false, List.append_eq]
    rw [ih _ hw.2]
    simp

theorem splitWsGo_pieces (l : List Char) (acc : List Char)
    (hacc : acc.all (fun c => !rustIsWhitespace c)) :
    ∀ p ∈ splitWsGo l acc, p ≠ [] ∧ p.all (fun c => !rustIsWhitespace c) := by
  induction l generalizing acc with
  | nil =>
    intro p hp
    simp only [splitWsGo] at hp
    by_cases he : acc.isEmpty
    · simp [he] at hp
    · simp [he] at hp
      subst hp
      constructor
      · simpa [List.isEmpty_iff] using he
      · simpa using hacc
  | cons c rest ih =>
    intro p hp
    simp only [splitWsGo] at hp
    by_cases hc : rustIsWhitespace c
    · simp only [hc, if_true] at hp
      by_cases he : acc.isEmpty
      · simp only [he, if_true] at hp
        exact ih [] (by simp) p hp
      · simp only [he, Bool.false_eq_true, if_false] at hp
        rcases List.mem_cons.mp hp with h1 | h2
        · subst h1
          constructor
          · simpa [List.isEmpty_iff] using he
          · simpa using hacc
        · exact ih [] (by simp) p h2
    · have hcf : rustIsWhitespace c = false := by
        revert hc
        cases rustIsWhitespace c <;> simp
      simp only [hcf, Bool.false_eq_true, if_false] at hp
      exact ih (c :: acc) (by simp [hcf, hacc]) p hp

theorem splitWhitespace_words (ws : List String)
    (h : ∀ w ∈ ws, w.data ≠ [] ∧ w.data.all (fun c => !rustIsWhitespace c)) :
    splitWhitespace (joinSep " " ws) = ws := by
  induction ws with
  | nil => rfl
  | cons w rest ih =>
    cases rest with
    | nil =>
      obtain ⟨hne, hall⟩ := h w (by simp)
      show (splitWsGo (joinSep " " [w]).data [] ).map (fun l => (⟨l⟩ : String)) = [w]
      have : (joinSep " " [w]).data = w.data ++ [] := by simp [joinSep]
      rw [this, splitWsGo_append_nonWs w.data [] [] hall]
      simp only [splitWsGo, List.append_nil]
      have : (w.data.reverse).isEmpty = false := by
        cases hd : w.data with
        | nil => exact absurd hd hne
        | cons a b => simp [List.isEmpty_iff]
      simp [this]
    | cons w2 rest2 =>
      obtain ⟨hne, hall⟩ := h w (by simp)
      have hrest : ∀ x ∈ w2 :: rest2, x.data ≠ [] ∧
          x.data.all (fun c => !rustIsWhitespace c) := by
        intro x hx
        exact h x (List.mem_cons_of_mem _ hx)
      show (splitWsGo (joinSep " " (w :: w2 :: rest2)).data []).map
          (fun l => (⟨l⟩ : String)) = w :: w2 :: rest2
      have hdata : (joinSep " " (w :: w2 :: rest2)).data =
          w.data ++ (' ' :: (joinSep " " (w2 :: rest2)).data) := by
        show (w ++ " " ++ joinSep " " (w2 :: rest2)).data = _
        simp [String.data_append]
      rw [hdata, splitWsGo_append_nonWs w.data _ [] hall]
      have hsp : rustIsWhitespace ' ' = true := by decide
      simp only [splitWsGo, hsp, if_true, List.append_nil]
      have hne2 : (w.data.reverse).isEmpty = false := by
        cases hd : w.data with
        | nil => exact absurd hd hne
        | cons a b => simp [List.isEmpty_iff]
      simp only [hne2, Bool.false_eq_true, if_false]
      have := ih hrest
      simp only [splitWhitespace] at this
      simp [this]

theorem normalizeWs_idem (s : String) : normalizeWs (normalizeWs s) = normalizeWs s := by
  show joinSep " " (splitWhitespace (normalizeWs s)) = normalizeWs s
  rw [show normalizeWs s = joinSep " " (splitWhitespace s) from rfl]
  rw [splitWhitespace_words]
  intro w hw
  simp only [splitWhitespace, List.mem_map] at hw
  obtain ⟨p, hp, rfl⟩ := hw
  have := splitWsGo_pieces s.data [] (by simp) p hp
  exact this

/-! ## Behavior lemmas for the three evaluators -/

theorem fold_rule_one_no_match (selector : String) (sel : Sel) (element : Node)
    (name : Option String) (subs : Option (List Folder.ScrapeRule)) (attr : Option String)
    (hp : selParse selector = some sel) (hz : select sel element = []) :
    Folder.fold_rule (.One selector name subs attr) element = some Value.null := by
  cases subs <;> cases attr <;> simp [Folder.fold_rule, hp, hz]

theorem fold_rule_all_no_match (selector : String) (sel : Sel) (element : Node)
    (name : Option String) (subs : Option (List Folder.ScrapeRule)) (attr : Option String)
    (hp : selParse selector = some sel) (hz : select sel element = []) :
    Folder.fold_rule (.All selector name subs attr) element = some (Value.arr []) := by
  cases subs <;> cases attr <;> simp [Folder.fold_rule, hp, hz, List.mapM.loop]

theorem folder_scrape_one_no_match (selector : String) (sel : Sel) (root : Node)
    (nm : String) (subs : Option (List Folder.ScrapeRule)) (attr : Option String)
    (hp : selParse selector = some sel) (hz : select sel root = []) :
    Folder.scrape [.One selector (some nm) subs attr] root = some [(nm, Value.null)] := by
  simp [Folder.scrape, Folder.scrapeGo,
    fold_rule_one_no_match selector sel root (some nm) subs attr hp hz,
    Folder.ScrapeRule.name, Option.bind, mapInsert]

theorem fold_rule_one_panic (selector : String) (element : Node)
    (name : Option String) (subs : Option (List Folder.ScrapeRule)) (attr : Option String)
    (hp : selParse selector = none) :
    Folder.fold_rule (.One selector name subs attr) element = none := by
  cases subs <;> cases attr <;> simp [Folder.fold_rule, hp]

theorem fold_rule_one_attr_missing (selector : String) (sel : Sel) (element : Node)
    (name : Option String) (a : String) (selected : Node) (restEls : List Node)
    (hp : selParse selector = some sel) (hsel : select sel element = selected :: restEls)
    (ha : attrLookup (nodeAttrs selected) a = none) :
    Folder.fold_rule (.One selector name none (some a)) element = some (Value.str "") := by
  simp [Folder.fold_rule, hp, hsel, ha]

theorem fold_rule_all_attr_missing (selector : String) (sel : Sel) (element : Node)
    (name : Option String) (a : String)
    (hp : selParse selector = some sel)
    (hall : ∀ e ∈ select sel element, attrLookup (nodeAttrs e) a = none) :
    Folder.fold_rule (.All selector name none (some a)) element =
      some (Value.arr ((select sel element).map (fun _ => Value.str ""))) := by
  have key : ∀ (es : List Node) (acc : List Value),
      (∀ e ∈ es, attrLookup (nodeAttrs e) a = none) →
      List.mapM.loop (fun selected_element =>
        some (Value.str ((attrLookup (nodeAttrs selected_element) a).getD ""))) es acc =
        some (acc.reverse ++ es.map (fun _ => Value.str "")) := by
    intro es
    induction es with
    | nil => intro acc _; simp [List.mapM.loop]
    | cons e rest ih =>
      intro acc hes
      have h1 := hes e (by simp)
      have h2 := ih (Value.str "" :: acc) (fun x hx => hes x (List.mem_cons_of_mem _ hx))
      simp [List.mapM.loop, h1, h2]
  simp only [Folder.fold_rule, hp]
  show Option.map Value.arr (List.mapM.loop _ (select sel element) []) = _
  rw [key _ [] hall]
  simp

theorem fold_rule_text_eq (selector : String) (sel : Sel) (element : Node)
    (name : Option String) (hp : selParse selector = some sel) :
    Folder.fold_rule (.Text selector name) element =
      some (.str (normalizeWs (joinSep " " ((select sel element).map textContent)))) := by
  simp [Folder.fold_rule, hp, normalizeWs]

theorem visit_one_no_match (selector : String) (sel : Sel) (element : Node)
    (name : String) (subs : Option (List Config.ScrapeRule)) (attr : Option String)
    (cleaner : Option (String → String))
    (hp : selParse selector = some sel) (hz : select sel element = []) :
    Visitor.visit_element (.One selector name subs attr) element cleaner = some [] := by
  cases subs <;> cases attr <;> simp [Visitor.visit_element, hp, hz]

theorem visit_all_no_match (selector : String) (sel : Sel) (element : Node)
    (name : String) (subs : Option (List Config.ScrapeRule)) (attr : Option String)
    (cleaner : Option (String → String))
    (hp : selParse selector = some sel) (hz : select sel element = []) :
    Visitor.visit_element (.All selector name subs attr) element cleaner =
      some [(name, "[]")] := by
  have hemp : Visitor.jsonStringList [] = "[]" := rfl
  cases subs <;> cases attr <;>
    simp [Visitor.visit_element, hp, hz, hemp, mapInsert, List.mapM.loop, Option.bind]

theorem visit_one_panic (selector : String) (element : Node)
    (name : String) (subs : Option (List Config.ScrapeRule)) (attr : Option String)
    (cleaner : Option (String → String))
    (hp : selParse selector = none) :
    Visitor.visit_element (.One selector name subs attr) element cleaner = none := by
  cases subs <;> cases attr <;> simp [Visitor.visit_element, hp]

theorem visit_one_attr_missing (selector : String) (sel : Sel) (element : Node)
    (name : String) (a : String) (selected : Node) (restEls : List Node)
    (cleaner : Option (String → String))
    (hp : selParse selector = some sel) (hsel : select sel element = selected :: restEls)
    (ha : attrLookup (nodeAttrs selected) a = none) :
    Visitor.visit_element (.One selector name none (some a)) element cleaner =
      some [(name, Visitor.visit_text "" cleaner)] := by
  simp [Visitor.visit_element, hp, hsel, ha, mapInsert]

theorem visit_text_arm (selector : String) (sel : Sel) (element : Node)
    (name : String) (cleaner : Option (String → String))
    (hp : selParse selector = some sel) :
    Visitor.visit_element (.Text selector name) element cleaner =
      some [(name, Visitor.visit_text
        (joinSep " " ((select sel element).map textContent)) cleaner)] := by
  simp [Visitor.visit_element, hp, mapInsert]

theorem visit_one_subs_merge (selector : String) (sel : Sel) (element : Node)
    (name : String) (subs : List Config.ScrapeRule) (attr : Option String)
    (selected : Node) (restEls : List Node)
    (cleaner : Option (String → String))
    (hp : selParse selector = some sel) (hsel : select sel element = selected :: restEls) :
    Visitor.visit_element (.One selector name (some subs) attr) element cleaner =
      Visitor.visit_subs subs selected cleaner [] := by
  simp [Visitor.visit_element, hp, hsel]

theorem old_extract_one_no_match (selector : String) (sel : Sel) (document : Node)
    (name : Option String) (subs : Option (List Old.Extract)) (attr : Option String)
    (result : List (String × Value))
    (hp : selParse selector = some sel) (hz : select sel document = []) :
    Old.extract document result (.One selector name subs attr) =
      .error (.ElementNotFound selector) := by
  cases subs <;> cases attr <;>
    simp [Old.extract, hp, hz, Except.bind, Except.instMonad]

theorem old_extract_all_no_match (selector : String) (sel : Sel) (document : Node)
    (name : Option String) (subs : Option (List Old.Extract)) (attr : Option String)
    (result : List (String × Value))
    (hp : selParse selector = some sel) (hz : select sel document = []) :
    Old.extract document result (.All selector name subs attr) =
      .error (.ElementNotFound selector) := by
  cases subs <;> cases attr <;>
    simp [Old.extract, hp, hz, Except.bind, Except.instMonad]

theorem old_extract_invalid_selector (selector : String) (document : Node)
    (name name2 : Option String) (subs : Option (List Old.Extract)) (attr : Option String)
    (result : List (String × Value))
    (hp : selParse selector = none) :
    Old.extract document result (.One selector name subs attr) =
        .error (.InvalidSelector selector) ∧
    Old.extract document result (.All selector name subs attr) =
        .error (.InvalidSelector selector) ∧
    Old.extract document result (.Text selector name2) =
        .error (.InvalidSelector selector) := by
  refine ⟨?_, ?_, ?_⟩ <;> cases subs <;> cases attr <;>
    simp [Old.extract, hp, Except.bind, Except.instMonad]

theorem old_extract_one_attr_missing (selector : String) (sel : Sel) (document : Node)
    (name : Option String) (a : String) (selected : Node) (restEls : List Node)
    (result : List (String × Value))
    (hp : selParse selector = some sel) (hsel : select sel document = selected :: restEls)
    (ha : attrLookup (nodeAttrs selected) a = none) :
    Old.extract document result (.One selector name none (some a)) =
      .ok (mapInsert result (name.getD selector) (Value.str "")) := by
  simp [Old.extract, hp, hsel, ha, Except.bind, Except.instMonad]

theorem old_extract_text_eq (selector : String) (sel : Sel) (document : Node)
    (name : Option String) (result : List (String × Value))
    (hp : selParse selector = some sel) :
    Old.extract document result (.Text selector name) =
      .ok (mapInsert result (name.getD selector)
        (Value.str (normalizeWs (joinSep " " ((select sel document).map textContent))))) := by
  simp [Old.extract, hp, normalizeWs, Except.bind, Except.instMonad]

/-! ## Key provenance in the flat visitor -/

theorem lookup_single_isSome {V : Type} (name k : String) (v : V)
    (h : (([(name, v)] : List (String × V)).lookup k).isSome = true) : k = name := by
  by_cases hk : k = name
  · exact hk
  · have hb : (k == name) = false := by simpa using hk
    simp [List.lookup, hb] at h

mutual
theorem visit_element_keys (r : Config.ScrapeRule) (e : Node) (c : Option (String → String))
    (k : String) (h : (((Visitor.visit_element r e c).getD []).lookup k).isSome = true) :
    k ∈ Config.ruleKeys r := by
  cases r with
  | One selector name sub_rules attr =>
    cases hps : selParse selector with
    | none =>
      cases sub_rules <;> cases attr <;>
        simp [Visitor.visit_element, hps, List.lookup] at h
    | some sel =>
      cases hsel : select sel e with
      | nil =>
        cases sub_rules <;> cases attr <;>
          simp [Visitor.visit_element, hps, hsel, List.lookup] at h
      | cons selected tail =>
        cases sub_rules with
        | some subs =>
          rw [visit_one_subs_merge selector sel e name subs attr selected tail c hps hsel] at h
          rcases visit_subs_keys subs selected c [] k h with h1 | h2
          · simp [List.lookup] at h1
          · simpa [Config.ruleKeys] using h2
        | none =>
          cases attr with
          | some a =>
            simp only [Visitor.visit_element, hps, hsel, Option.getD_some] at h
            have := lookup_single_isSome name k _ h
            simp [Config.ruleKeys, this]
          | none =>
            simp only [Visitor.visit_element, hps, hsel, Option.getD_some] at h
            have := lookup_single_isSome name k _ h
            simp [Config.ruleKeys, this]
  | All selector name sub_rules attr =>
    cases hps : selParse selector with
    | none =>
      cases sub_rules <;> cases attr <;>
        simp [Visitor.visit_element, hps, List.lookup] at h
    | some sel =>
      cases sub_rules with
      | some subs =>
        cases hm : (select sel e).mapM (fun selected_element =>
            (Visitor.visit_subs subs selected_element c []).map Visitor.jsonStringMap) with
        | none =>
          have hm2 : List.mapM.loop (fun selected_element =>
              (Visitor.visit_subs subs selected_element c []).map Visitor.jsonStringMap)
              (select sel e) [] = none := hm
          simp [Visitor.visit_element, hps, hm, hm2, List.lookup, Option.bind] at h
        | some values =>
          have hm2 : List.mapM.loop (fun selected_element =>
              (Visitor.visit_subs subs selected_element c []).map Visitor.jsonStringMap)
              (select sel e) [] = some values := hm
          simp only [Visitor.visit_element, hps, hm, hm2, Option.bind, Option.getD_some] at h
          have := lookup_single_isSome name k _ h
          simp [Config.ruleKeys, this]
      | none =>
        cases attr with
        | some a =>
          cases hm : (select sel e).mapM (fun selected_element =>
              some (Visitor.visit_text ((attrLookup (nodeAttrs selected_element) a).getD "")
                c)) with
          | none =>
            have hm2 : List.mapM.loop (fun selected_element =>
                some (Visitor.visit_text ((attrLookup (nodeAttrs selected_element) a).getD "")
                  c)) (select sel e) [] = none := hm
            simp [Visitor.visit_element, hps, hm, hm2, List.lookup, Option.bind] at h
          | some values =>
            have hm2 : List.mapM.loop (fun selected_element =>
                some (Visitor.visit_text ((attrLookup (nodeAttrs selected_element) a).getD "")
                  c)) (select sel e) [] = some values := hm
            simp only [Visitor.visit_element, hps, hm, hm2, Option.bind, Option.getD_some] at h
            have := lookup_single_isSome name k _ h
            simp [Config.ruleKeys, this]
        | none =>
          cases hm : (select sel e).mapM (fun selected_element =>
              some (Visitor.visit_text (textContent selected_element) c)) with
          | none =>
            have hm2 : List.mapM.loop (fun selected_element =>
                some (Visitor.visit_text (textContent selected_element) c))
                (select sel e) [] = none := hm
            simp [Visitor.visit_element, hps, hm, hm2, List.lookup, Option.bind] at h
          | some values =>
            have hm2 : List.mapM.loop (fun selected_element =>
                some (Visitor.visit_text (textContent selected_element) c))
                (select sel e) [] = some values := hm
            simp only [Visitor.visit_element, hps, hm, hm2, Option.bind, Option.getD_some] at h
            have := lookup_single_isSome name k _ h
            simp [Config.ruleKeys, this]
  | Text selector name =>
    cases hps : selParse selector with
    | none => simp [Visitor.visit_element, hps, List.lookup] at h
    | some sel =>
      simp only [Visitor.visit_element, hps, Option.getD_some] at h
      have := lookup_single_isSome name k _ h
      simp [Config.ruleKeys, this]
theorem visit_subs_keys (rs : List Config.ScrapeRule) (e : Node) (c : Option (String → String))
    (acc : List (String × String)) (k : String)
    (h : (((Visitor.visit_subs rs e c acc).getD []).lookup k).isSome = true) :
    (acc.lookup k).isSome = true ∨ k ∈ Config.rulesKeys rs := by
  cases rs with
  | nil =>
    simp only [Visitor.visit_subs, Option.getD_some] at h
    exact Or.inl h
  | cons r rest =>
    cases hm : Visitor.visit_element r e c with
    | none => simp [Visitor.visit_subs, hm, List.lookup, Option.bind] at h
    | some m =>
      simp only [Visitor.visit_subs, hm, Option.bind] at h
      rcases visit_subs_keys rest e c (mapExtend acc m) k h with h1 | h2
      · rw [mapExtend_lookup] at h1
        cases hmr : m.reverse.lookup k with
        | some v =>
          have hmk : ¬(m.lookup k = none) := by
            intro hnone
            rw [← lookup_reverse_eq_none_iff] at hnone
            rw [hnone] at hmr
            exact Option.noConfusion hmr
          have hms : ((m.lookup k).isSome = true) := Option.isSome_iff_ne_none.mpr hmk
          have := visit_element_keys r e c k (by simpa [hm] using hms)
          exact Or.inr (by simp [Config.rulesKeys, List.mem_append, this])
        | none =>
          rw [hmr] at h1
          simp only [Option.none_or] at h1
          exact Or.inl h1
      · exact Or.inr (by simp [Config.rulesKeys, List.mem_append, h2])
end

/-! ## Claims -/

/-- C1, counterexample: the claim says a `Single`/`One` rule matching
zero nodes never yields an error, but `old.rs`'s evaluator returns
`ElementNotFound` for exactly that input. -/
theorem C1_counterexample :
    Old.scrape_html sampleDoc [.One ".missing" (some "x") none none] =
      Except.error (.ElementNotFound ".missing") := rfl

/-- C1 (amended): for a `Single`/`One` rule whose parsed selector
matches zero descendant nodes, the folder evaluator yields `Null`
(bound under the rule's name at top level), the flat visitor
contributes nothing (no key, no error), and `old.rs`'s evaluator
returns an `ElementNotFound` error. -/
theorem C1_single_no_match (selector : String) (sel : Sel) (element : Node)
    (nameF : Option String) (subsF : Option (List Folder.ScrapeRule)) (attrF : Option String)
    (nm : String) (nameV : String) (subsV : Option (List Config.ScrapeRule))
    (attrV : Option String) (cleaner : Option (String → String))
    (nameO : Option String) (subsO : Option (List Old.Extract)) (attrO : Option String)
    (result : List (String × Value))
    (hp : selParse selector = some sel) (hz : select sel element = []) :
    Folder.fold_rule (.One selector nameF subsF attrF) element = some Value.null ∧
    Folder.scrape [.One selector (some nm) subsF attrF] element = some [(nm, Value.null)] ∧
    Visitor.visit_element (.One selector nameV subsV attrV) element cleaner = some [] ∧
    Old.extract element result (.One selector nameO subsO attrO) =
      Except.error (.ElementNotFound selector) :=
  ⟨fold_rule_one_no_match _ _ _ _ _ _ hp hz,
   folder_scrape_one_no_match _ _ _ _ _ _ hp hz,
   visit_one_no_match _ _ _ _ _ _ _ hp hz,
   old_extract_one_no_match _ _ _ _ _ _ _ hp hz⟩

/-- C1, witness at a concrete document and selector. -/
theorem C1_single_no_match_witness :
    selParse ".missing" = some (.classSel "missing") ∧
    select (.classSel "missing") sampleDoc = [] ∧
    (Folder.fold_rule (.One ".missing" (some "x") none none) sampleDoc = some Value.null ∧
     Folder.scrape [.One ".missing" (some "x") none none] sampleDoc =
       some [("x", Value.null)] ∧
     Visitor.visit_element (.One ".missing" "x" none none) sampleDoc none = some [] ∧
     Old.extract sampleDoc [] (.One ".missing" (some "x") none none) =
       Except.error (.ElementNotFound ".missing")) :=
  ⟨rfl, rfl, C1_single_no_match ".missing" (.classSel "missing") sampleDoc (some "x") none
    none "x" "x" none none none (some "x") none none [] rfl rfl⟩

/-- C2, counterexample: the claim says a `Many`/`All` rule matching
zero nodes never yields an error, but `old.rs`'s evaluator returns
`ElementNotFound` for exactly that input. -/
theorem C2_counterexample :
    Old.scrape_html sampleDoc [.All ".missing" (some "xs") none none] =
      Except.error (.ElementNotFound ".missing") := rfl

/-- C2 (amended): for a `Many`/`All` rule whose parsed selector matches
zero descendant nodes, the folder evaluator yields the empty list, the
flat visitor binds the rule's name to the serialized empty list
`"[]"`, and `old.rs`'s evaluator returns an `ElementNotFound` error. -/
theorem C2_many_no_match (selector : String) (sel : Sel) (element : Node)
    (nameF : Option String) (subsF : Option (List Folder.ScrapeRule)) (attrF : Option String)
    (nameV : String) (subsV : Option (List Config.ScrapeRule)) (attrV : Option String)
    (cleaner : Option (String → String))
    (nameO : Option String) (subsO : Option (List Old.Extract)) (attrO : Option String)
    (result : List (String × Value))
    (hp : selParse selector = some sel) (hz : select sel element = []) :
    Folder.fold_rule (.All selector nameF subsF attrF) element = some (Value.arr []) ∧
    Visitor.visit_element (.All selector nameV subsV attrV) element cleaner =
      some [(nameV, "[]")] ∧
    Old.extract element result (.All selector nameO subsO attrO) =
      Except.error (.ElementNotFound selector) :=
  ⟨fold_rule_all_no_match _ _ _ _ _ _ hp hz,
   visit_all_no_match _ _ _ _ _ _ _ hp hz,
   old_extract_all_no_match _ _ _ _ _ _ _ hp hz⟩

/-- C2, witness at a concrete document and selector. -/
theorem C2_many_no_match_witness :
    selParse ".missing" = some (.classSel "missing") ∧
    select (.classSel "missing") sampleDoc = [] ∧
    (Folder.fold_rule (.All ".missing" (some "xs") none none) sampleDoc =
       some (Value.arr []) ∧
     Visitor.visit_element (.All ".missing" "xs" none none) sampleDoc none =
       some [("xs", "[]")] ∧
     Old.extract sampleDoc [] (.All ".missing" (some "xs") none none) =
       Except.error (.ElementNotFound ".missing")) :=
  ⟨rfl, rfl, C2_many_no_match ".missing" (.classSel "missing") sampleDoc (some "xs") none
    none "xs" none none none (some "xs") none none [] rfl rfl⟩

/-- C3, counterexample: the claim says an unparsable selector surfaces
a typed error at first use in every evaluator, but the folder and the
visitor panic instead (`Selector::parse(..).unwrap()`, modelled as
`none`), so no typed result reaches the caller there. -/
theorem C3_counterexample :
    Folder.fold_rule (.One "" (some "x") none none) sampleDoc = none ∧
    Visitor.visit_element (.One "" "x" none none) sampleDoc none = none :=
  ⟨rfl, rfl⟩

/-- C3 (amended): an unparsable selector string is reported by
`old.rs`'s evaluator as a typed `InvalidSelector` error at first use of
the rule, distinct from the `ElementNotFound` no-match outcome; the
folder and visitor evaluators panic on the `unwrap` instead of
returning a typed result. -/
theorem C3_selector_error (selector : String) (document element : Node)
    (nameF : Option String) (subsF : Option (List Folder.ScrapeRule)) (attrF : Option String)
    (nameV : String) (subsV : Option (List Config.ScrapeRule)) (attrV : Option String)
    (cleaner : Option (String → String))
    (nameO nameO2 : Option String) (subsO : Option (List Old.Extract))
    (attrO : Option String) (result : List (String × Value))
    (hp : selParse selector = none) :
    Old.extract document result (.One selector nameO subsO attrO) =
      Except.error (.InvalidSelector selector) ∧
    Old.extract document result (.All selector nameO subsO attrO) =
      Except.error (.InvalidSelector selector) ∧
    Old.extract document result (.Text selector nameO2) =
      Except.error (.InvalidSelector selector) ∧
    Old.ScraperError.InvalidSelector selector ≠ Old.ScraperError.ElementNotFound selector ∧
    Folder.fold_rule (.One selector nameF subsF attrF) element = none ∧
    Visitor.visit_element (.One selector nameV subsV attrV) element cleaner = none := by
  obtain ⟨h1, h2, h3⟩ :=
    old_extract_invalid_selector selector document nameO nameO2 subsO attrO result hp
  exact ⟨h1, h2, h3, by simp,
    fold_rule_one_panic _ _ _ _ _ hp,
    visit_one_panic _ _ _ _ _ _ hp⟩

/-- C3, witness at the concrete unparsable selector `""`. -/
theorem C3_selector_error_witness :
    selParse "" = none ∧
    (Old.extract sampleDoc [] (.One "" (some "x") none none) =
       Except.error (.InvalidSelector "") ∧
     Old.extract sampleDoc [] (.All "" (some "x") none none) =
       Except.error (.InvalidSelector "") ∧
     Old.extract sampleDoc [] (.Text "" (some "y")) =
       Except.error (.InvalidSelector "") ∧
     Old.ScraperError.InvalidSelector "" ≠ Old.ScraperError.ElementNotFound "" ∧
     Folder.fold_rule (.One "" (some "x") none none) sampleDoc = none ∧
     Visitor.visit_element (.One "" "x" none none) sampleDoc none = none) :=
  ⟨rfl, C3_selector_error "" sampleDoc sampleDoc (some "x") none none "x" none none none
    (some "x") (some "y") none none [] rfl⟩

/-- C4, counterexample: the claim says every `TextOnly`/`Text` rule
collapses all whitespace runs, but the visitor's `Text` arm returns
the space-joined raw text (through the optional cleaner only): with no
cleaner an interior double space survives, while the folder collapses
it. -/
theorem C4_counterexample :
    Visitor.visit_element (.Text "p" "t") wsDoc none = some [("t", "a  b")] ∧
    "a  b" ≠ "a b" ∧
    Folder.fold_rule (.Text "p" (some "t")) wsDoc = some (.str "a b") :=
  ⟨rfl, by decide, rfl⟩

/-- C4 (amended): the folder and `old.rs` `Text` evaluators concatenate
the text of all matches with single spaces and then collapse every
whitespace run and trim (producing the idempotent whitespace normal
form `normalizeWs`); the visitor's `Text` arm instead hands the
space-joined concatenation to the optional cleaner without collapsing
whitespace itself. -/
theorem C4_textonly_normalization (selector : String) (sel : Sel) (element document : Node)
    (nameF : Option String) (nameO : Option String) (nameV : String)
    (cleaner : Option (String → String)) (result : List (String × Value))
    (hp : selParse selector = some sel) :
    Folder.fold_rule (.Text selector nameF) element =
      some (.str (normalizeWs (joinSep " " ((select sel element).map textContent)))) ∧
    Old.extract document result (.Text selector nameO) =
      Except.ok (mapInsert result (nameO.getD selector)
        (Value.str (normalizeWs (joinSep " " ((select sel document).map textContent))))) ∧
    Visitor.visit_element (.Text selector nameV) element cleaner =
      some [(nameV, Visitor.visit_text
        (joinSep " " ((select sel element).map textContent)) cleaner)] ∧
    (∀ s : String, normalizeWs (normalizeWs s) = normalizeWs s) :=
  ⟨fold_rule_text_eq _ _ _ _ hp,
   old_extract_text_eq _ _ _ _ _ hp,
   visit_text_arm _ _ _ _ _ hp,
   normalizeWs_idem⟩

/-- C4, witness at a concrete document with an interior double space. -/
theorem C4_textonly_normalization_witness :
    selParse "p" = some (.tagSel "p") ∧
    (Folder.fold_rule (.Text "p" (some "t")) wsDoc =
       some (.str (normalizeWs (joinSep " "
         ((select (.tagSel "p") wsDoc).map textContent)))) ∧
     Old.extract wsDoc [] (.Text "p" (some "t")) =
       Except.ok (mapInsert [] ((some "t").getD "p")
         (Value.str (normalizeWs (joinSep " "
           ((select (.tagSel "p") wsDoc).map textContent))))) ∧
     Visitor.visit_element (.Text "p" "t") wsDoc none =
       some [("t", Visitor.visit_text
         (joinSep " " ((select (.tagSel "p") wsDoc).map textContent)) none)] ∧
     (∀ s : String, normalizeWs (normalizeWs s) = normalizeWs s)) :=
  ⟨rfl, C4_textonly_normalization "p" (.tagSel "p") wsDoc wsDoc (some "t") (some "t") "t"
    none [] rfl⟩

/-- C5: a `Single`/`Many` rule with an attribute field, on a matched
node lacking that attribute, yields the empty string (never an error,
never an absent value): in the folder, in `old.rs`, and in the visitor
(with no cleaner and with the default cleaner); the `Many` form yields
the empty string for every such matched node. -/
theorem C5_attr_missing_empty (selector : String) (sel : Sel) (element : Node)
    (nameF : Option String) (a : String) (selected : Node) (restEls : List Node)
    (nameV : String) (nameO : Option String) (result : List (String × Value))
    (hp : selParse selector = some sel) (hsel : select sel element = selected :: restEls)
    (ha : attrLookup (nodeAttrs selected) a = none)
    (hall : ∀ e ∈ select sel element, attrLookup (nodeAttrs e) a = none) :
    Folder.fold_rule (.One selector nameF none (some a)) element = some (Value.str "") ∧
    Old.extract element result (.One selector nameO none (some a)) =
      Except.ok (mapInsert result (nameO.getD selector) (Value.str "")) ∧
    Visitor.visit_element (.One selector nameV none (some a)) element none =
      some [(nameV, "")] ∧
    Visitor.visit_element (.One selector nameV none (some a)) element
        (some DefaultCleaner.clean) = some [(nameV, "")] ∧
    Folder.fold_rule (.All selector nameF none (some a)) element =
      some (Value.arr ((select sel element).map (fun _ => Value.str ""))) :=
  ⟨fold_rule_one_attr_missing _ _ _ _ _ _ _ hp hsel ha,
   old_extract_one_attr_missing _ _ _ _ _ _ _ _ hp hsel ha,
   visit_one_attr_missing _ _ _ _ _ _ _ none hp hsel ha,
   visit_one_attr_missing _ _ _ _ _ _ _ (some DefaultCleaner.clean) hp hsel ha,
   fold_rule_all_attr_missing _ _ _ _ _ hp hall⟩

/-- C5, witness: a matched link element with no `href` attribute. -/
theorem C5_attr_missing_empty_witness :
    selParse ".link" = some (.classSel "link") ∧
    select (.classSel "link") attrDoc = [.elem "a" [("class", "link")] [.text "x"]] ∧
    attrLookup (nodeAttrs (.elem "a" [("class", "link")] [.text "x"])) "href" = none ∧
    (∀ e ∈ select (.classSel "link") attrDoc, attrLookup (nodeAttrs e) "href" = none) ∧
    (Folder.fold_rule (.One ".link" (some "link") none (some "href")) attrDoc =
       some (Value.str "") ∧
     Old.extract attrDoc [] (.One ".link" (some "link") none (some "href")) =
       Except.ok (mapInsert [] ((some "link").getD ".link") (Value.str "")) ∧
     Visitor.visit_element (.One ".link" "link" none (some "href")) attrDoc none =
       some [("link", "")] ∧
     Visitor.visit_element (.One ".link" "link" none (some "href")) attrDoc
         (some DefaultCleaner.clean) = some [("link", "")] ∧
     Folder.fold_rule (.All ".link" (some "link") none (some "href")) attrDoc =
       some (Value.arr ((select (.classSel "link") attrDoc).map (fun _ => Value.str "")))) :=
  ⟨rfl, rfl, rfl, by decide,
   C5_attr_missing_empty ".link" (.classSel "link") attrDoc (some "link") "href"
     (.elem "a" [("class", "link")] [.text "x"]) [] "link" (some "link") [] rfl rfl rfl
     (by decide)⟩

/-- C6: the default text cleaner splits its input on line breaks, trims
each line, drops the lines that are empty after trimming, and rejoins
the remaining lines with single spaces; in particular it maps
"  line1 \n line2  " to "line1 line2". -/
theorem C6_default_cleaner :
    (∀ text : String, DefaultCleaner.clean text =
      joinSep " " (((rustLines text).map rustTrim).filter (fun s => !s.data.isEmpty))) ∧
    DefaultCleaner.clean "  line1 \n line2  " = "line1 line2" :=
  ⟨fun _ => rfl, rfl⟩

/-- C7: encoding a rule list to the configuration schema (objects with
the `type` discriminator, `selector`, `name`, optional `sub_rules` and
`attribute`) and decoding it back yields the same rule tree: same
selectors, names, nesting and attributes, in the same order. -/
theorem C7_config_roundtrip (c : Config.ScraperConfig) :
    Config.decodeConfig (Config.encodeConfig c) = some c := by
  obtain ⟨rules⟩ := c
  simp [Config.encodeConfig, Config.decodeConfig, lookupField,
    decodeRuleList_encodeRules]

/-- C8, witness: the two-rule news configuration evaluated in both
orders agrees on the key "content" (and "title"). -/
theorem C8_mode_independence_witness :
    [Config.ScrapeRule.All ".paragraph" "content" none none,
     Config.ScrapeRule.One "h1" "title" none none].Perm
      [Config.ScrapeRule.One "h1" "title" none none,
       Config.ScrapeRule.All ".paragraph" "content" none none] ∧
    (([Config.ScrapeRule.One "h1" "title" none none,
       Config.ScrapeRule.All ".paragraph" "content" none none].map Config.ruleName).Nodup) ∧
    (Mt.mergeWrites (Mt.scrapePairs
        [Config.ScrapeRule.All ".paragraph" "content" none none,
         Config.ScrapeRule.One "h1" "title" none none] sampleDoc)).lookup "content" =
      (Mt.mergeWrites (Mt.scrapePairs
        [Config.ScrapeRule.One "h1" "title" none none,
         Config.ScrapeRule.All ".paragraph" "content" none none] sampleDoc)).lookup
        "content" ∧
    (Mt.mergeWrites (Mt.scrapePairs
        [Config.ScrapeRule.All ".paragraph" "content" none none,
         Config.ScrapeRule.One "h1" "title" none none] sampleDoc)).lookup "title" =
      (Mt.mergeWrites (Mt.scrapePairs
        [Config.ScrapeRule.One "h1" "title" none none,
         Config.ScrapeRule.All ".paragraph" "content" none none] sampleDoc)).lookup
        "title" :=
  ⟨List.Perm.swap _ _ _,
   by decide,
   C8_mode_independence _ _ sampleDoc (List.Perm.swap _ _ _) (by decide) "content",
   C8_mode_independence _ _ sampleDoc (List.Perm.swap _ _ _) (by decide) "title"⟩

/-- C9: configuration format selection in `from_config`: an existing
path is dispatched on its extension (".json" parsed as JSON, otherwise
".toml" parsed as TOML when the feature is enabled, any other
extension an UnsupportedFormat error); an inline string is sniffed by
attempting JSON first and then TOML; malformed content surfaces as a
typed error, never silently recovered. -/
theorem C9_config_format_selection (tomlEnabled : Bool)
    (parseJson parseToml : String → Option Config.ScraperConfig)
    (fs : Config.FileSystem) (config content : String) :
    (fs.read config = some content → strEndsWith config ".json" = true →
      Config.from_config tomlEnabled parseJson parseToml fs config =
        (match parseJson content with
         | some c => Except.ok c
         | none => Except.error .JsonParse)) ∧
    (fs.read config = some content → strEndsWith config ".json" = false →
      strEndsWith config ".toml" = true →
      Config.from_config true parseJson parseToml fs config =
        (match parseToml content with
         | some c => Except.ok c
         | none => Except.error .TomlParse)) ∧
    (fs.read config = some content → strEndsWith config ".json" = false →
      strEndsWith config ".toml" = false →
      Config.from_config tomlEnabled parseJson parseToml fs config =
        Except.error .UnsupportedFormat) ∧
    (fs.read config = none →
      Config.from_config true parseJson parseToml fs config =
        (match parseJson config with
         | some c => Except.ok c
         | none =>
           match parseToml config with
           | some c => Except.ok c
           | none => Except.error .TomlParse)) := by
  refine ⟨?_, ?_, ?_, ?_⟩
  · intro h1 h2
    simp [Config.from_config, h1, h2]
  · intro h1 h2 h3
    simp [Config.from_config, h1, h2, h3]
  · intro h1 h2 h3
    simp [Config.from_config, h1, h2, h3]
  · intro h1
    simp [Config.from_config, h1]

/-- C9, witness: a concrete filesystem with one ".json" path, one
".yaml" path, and an inline string that parses as neither format. -/
theorem C9_config_format_selection_witness :
    (Config.FileSystem.mk
        (fun s => if s == "rules.json" then some "CONTENT" else none)).read "rules.json" =
      some "CONTENT" ∧
    strEndsWith "rules.json" ".json" = true ∧
    Config.from_config true (fun _ => none) (fun _ => none)
        (Config.FileSystem.mk (fun s => if s == "rules.json" then some "CONTENT" else none))
        "rules.json" =
      (match (none : Option Config.ScraperConfig) with
       | some c => Except.ok c
       | none => Except.error Config.ConfigError.JsonParse) ∧
    (Config.FileSystem.mk
        (fun s => if s == "rules.yaml" then some "CONTENT" else none)).read "rules.yaml" =
      some "CONTENT" ∧
    strEndsWith "rules.yaml" ".json" = false ∧
    strEndsWith "rules.yaml" ".toml" = false ∧
    Config.from_config true (fun _ => none) (fun _ => none)
        (Config.FileSystem.mk (fun s => if s == "rules.yaml" then some "CONTENT" else none))
        "rules.yaml" = Except.error Config.ConfigError.UnsupportedFormat ∧
    (Config.FileSystem.mk (fun _ => none)).read "not json" = none ∧
    Config.from_config true (fun _ => none) (fun _ => none)
        (Config.FileSystem.mk (fun _ => none)) "not json" =
      Except.error Config.ConfigError.TomlParse :=
  ⟨by decide, by decide,
   (C9_config_format_selection true (fun _ => none) (fun _ => none)
     (Config.FileSystem.mk (fun s => if s == "rules.json" then some "CONTENT" else none))
     "rules.json" "CONTENT").1 (by decide) (by decide),
   by decide, by decide, by decide,
   (C9_config_format_selection true (fun _ => none) (fun _ => none)
     (Config.FileSystem.mk (fun s => if s == "rules.yaml" then some "CONTENT" else none))
     "rules.yaml" "CONTENT").2.2.1 (by decide) (by decide) (by decide),
   rfl,
   (C9_config_format_selection true (fun _ => none) (fun _ => none)
     (Config.FileSystem.mk (fun _ => none)) "not json" "").2.2.2 rfl⟩

/-- C10, counterexample: the claim says the name of a `One` rule with
sub-rules never appears as a key in the flat visitor's output, but a
sub-rule bearing the same name surfaces that key. -/
theorem C10_counterexample :
    Visitor.visit_element (.One "div" "x" (some [.One "p" "x" none none]) none)
        nestedDoc none = some [("x", "hi")] ∧
    (([("x", "hi")] : List (String × String)).lookup "x") = some "hi" :=
  ⟨rfl, rfl⟩

/-- C10 (amended): in the flat visitor, a matched `One` rule with
sub-rules contributes exactly the merged pairs of its sub-rules
(nesting erased, nothing inserted under the rule's own name by the
rule itself), so the rule's name appears only if some sub-rule
contributes that key; colliding keys overwrite, last write wins. -/
theorem C10_flat_merge (selector : String) (sel : Sel) (element : Node)
    (name : String) (subs : List Config.ScrapeRule) (attr : Option String)
    (selected : Node) (restEls : List Node) (cleaner : Option (String → String))
    (hp : selParse selector = some sel) (hsel : select sel element = selected :: restEls) :
    Visitor.visit_element (.One selector name (some subs) attr) element cleaner =
      Visitor.visit_subs subs selected cleaner [] ∧
    (∀ k, (((Visitor.visit_subs subs selected cleaner []).getD []).lookup k).isSome = true →
      k ∈ Config.rulesKeys subs) ∧
    (∀ (m : List (String × String)) (k v : String),
      (mapInsert m k v).lookup k = some v) :=
  ⟨visit_one_subs_merge _ _ _ _ _ _ _ _ _ hp hsel,
   fun k hk => by
     rcases visit_subs_keys subs selected cleaner [] k hk with h1 | h2
     · simp [List.lookup] at h1
     · exact h2,
   fun m k v => by simp [mapInsert_lookup]⟩

/-- C10, witness at a concrete nested document. -/
theorem C10_flat_merge_witness :
    selParse "div" = some (.tagSel "div") ∧
    select (.tagSel "div") nestedDoc = [.elem "div" [] [.elem "p" [] [.text "hi"]]] ∧
    Visitor.visit_element (.One "div" "x" (some [.One "p" "x" none none]) none)
        nestedDoc none =
      Visitor.visit_subs [.One "p" "x" none none]
        (.elem "div" [] [.elem "p" [] [.text "hi"]]) none [] :=
  ⟨rfl, rfl,
   (C10_flat_merge "div" (.tagSel "div") nestedDoc "x" [.One "p" "x" none none] none
     (.elem "div" [] [.elem "p" [] [.text "hi"]]) [] none rfl rfl).1⟩
